import Mathlib

/-!
SimpleChaincode: a validated key-value gateway over a ledger state store.

Shallow embedding of `chaincode/simple_chaincode/simple_chaincode.go`.

* Go strings are Lean `String`s, `[]byte` is `ByteArray`, and a nil slice is
  `none` (so `Option ByteArray` keeps nil apart from an empty, non-nil slice).
* The stub is threaded through every handler: a handler returns the response
  together with the stub after the call.
* A Go run-time panic (indexing `args` out of range) is the `none` result of a
  handler; a handler that returns yields `some (response, stub)`.
* Logger calls write to the process log only and are left out.
-/

namespace SimpleChaincode

/-- Response message of a chaincode call (`pb.Response`): `Status`, `Message`
and `Payload`, where a nil payload is `none`. -/
structure Response where
  Status : Int
  Message : String
  Payload : Option ByteArray

namespace shim

/-- Status code `shim.OK`. -/
def OK : Int := 200

/-- Status code `shim.ERROR`. -/
def ERROR : Int := 500

/-- Response built by `shim.Success(payload)`: status `OK`, the payload, no message. -/
def Success (payload : Option ByteArray) : Response :=
  { Status := OK, Message := "", Payload := payload }

/-- Response built by `shim.Error(msg)`: status `ERROR`, the message, no payload. -/
def Error (msg : String) : Response :=
  { Status := ERROR, Message := msg, Payload := none }

end shim

/-- One call on the host state store, as issued by a handler. -/
inductive StoreCall where
  | GetState (key : String)
  | PutState (key : String) (value : ByteArray)
  | DelState (key : String)

/-- Modelled from the spec: the host state store behind `shim.ChaincodeStubInterface`,
which the repository imports and does not define. `State` is the mapping from key
to value, where absence (`none`) is distinct from an empty value that is present;
`faults` says for which calls the host reports an error, and with what text;
`calls` records the store calls issued so far, oldest first. `dropsEmpty` is a
parameter of the host that the spec leaves open: `false` for the spec's State Store,
which keeps an empty value as a present value; `true` for a host that treats the
write of an empty value as the deletion of the key, as the imported shim does. -/
structure ChaincodeStub where
  State : String → Option ByteArray
  faults : StoreCall → Option String
  calls : List StoreCall
  dropsEmpty : Bool

namespace ChaincodeStub

/-- The entry a key has after a successful write of `value`: the value itself,
except on a host that drops empty values when `len(value) == 0`. -/
def stored (stub : ChaincodeStub) (value : ByteArray) : Option ByteArray :=
  if stub.dropsEmpty = true ∧ value.size = 0 then none else some value

/-- Modelled from the spec: `get(key) -> (bytes, found, error)`. Returns the value
slice (nil when the key is absent or the host reports an error) and the error. -/
def GetState (stub : ChaincodeStub) (key : String) :
    (Option ByteArray × Option String) × ChaincodeStub :=
  let stub' := { stub with calls := stub.calls ++ [StoreCall.GetState key] }
  match stub.faults (StoreCall.GetState key) with
  | some e => ((none, some e), stub')
  | none => ((stub.State key, none), stub')

/-- Modelled from the spec: `put(key, bytes) -> ok|error`. On success the store maps
`key` to `value`, overwriting any prior value (on a host that drops empty values, an
empty `value` leaves `key` absent); on error the mapping is unchanged. -/
def PutState (stub : ChaincodeStub) (key : String) (value : ByteArray) :
    Option String × ChaincodeStub :=
  let stub' := { stub with calls := stub.calls ++ [StoreCall.PutState key value] }
  match stub.faults (StoreCall.PutState key value) with
  | some e => (some e, stub')
  | none =>
    (none, { stub' with State := fun k => if k = key then stub.stored value else stub.State k })

/-- Modelled from the spec: `delete(key) -> ok|error`. On success the key is absent
afterwards (deleting an absent key succeeds and changes nothing); on error the
mapping is unchanged. -/
def DelState (stub : ChaincodeStub) (key : String) : Option String × ChaincodeStub :=
  let stub' := { stub with calls := stub.calls ++ [StoreCall.DelState key] }
  match stub.faults (StoreCall.DelState key) with
  | some e => (some e, stub')
  | none => (none, { stub' with State := fun k => if k = key then none else stub.State k })

end ChaincodeStub

/-- Conversion `[]byte(value)` of a Go string: its bytes, as a non-nil slice. -/
def bytes (value : String) : ByteArray := value.toUTF8

/-- SimpleChaincode.Init: returns `shim.Success(nil)`. -/
def Init (stub : ChaincodeStub) : Option (Response × ChaincodeStub) :=
  some (shim.Success none, stub)

/-- SimpleChaincode.put. -/
def put (stub : ChaincodeStub) (args : List String) : Option (Response × ChaincodeStub) :=
  if args.length ≠ 2 then
    let message := "wrong number of arguments: passed " ++ toString args.length
      ++ ", expected " ++ toString 2
    some ({ Status := 400, Message := message, Payload := none }, stub)
  else do
    let key ← args[0]?
    let value ← args[1]?
    if key = "" then
      let message := "key must be a non-empty string"
      some ({ Status := 400, Message := message, Payload := none }, stub)
    else
      match stub.PutState key (bytes value) with
      | (some err, stub') =>
        let message := "unable to put a key-value pair: " ++ err
        some (shim.Error message, stub')
      | (none, stub') => some (shim.Success none, stub')

/-- SimpleChaincode.get. -/
def get (stub : ChaincodeStub) (args : List String) : Option (Response × ChaincodeStub) :=
  if args.length ≠ 1 then
    let message := "wrong number of arguments: passed " ++ toString args.length
      ++ ", expected " ++ toString 1
    some ({ Status := 400, Message := message, Payload := none }, stub)
  else do
    let key ← args[0]?
    if key = "" then
      let message := "key must be a non-empty string"
      some ({ Status := 400, Message := message, Payload := none }, stub)
    else
      match stub.GetState key with
      | ((_, some err), stub') =>
        let message := "unable to get a value for the key " ++ key ++ ": " ++ err
        some (shim.Error message, stub')
      | ((none, none), stub') =>
        let message := "a value for the key " ++ key ++ " not found"
        some ({ Status := 404, Message := message, Payload := none }, stub')
      | ((some valueBytes, none), stub') => some (shim.Success (some valueBytes), stub')

/-- SimpleChaincode.del. -/
def del (stub : ChaincodeStub) (args : List String) : Option (Response × ChaincodeStub) :=
  if args.length ≠ 1 then
    let message := "wrong number of arguments: passed " ++ toString args.length
      ++ ", expected " ++ toString 1
    some ({ Status := 400, Message := message, Payload := none }, stub)
  else do
    let key ← args[0]?
    if key = "" then
      let message := "key must be a non-empty string"
      some ({ Status := 400, Message := message, Payload := none }, stub)
    else
      match stub.DelState key with
      | (some err, stub') =>
        let message := "unable to delete a pair associated with the key " ++ key ++ ": " ++ err
        some (shim.Error message, stub')
      | (none, stub') => some (shim.Success none, stub')

/-- SimpleChaincode.Invoke, with the result of `stub.GetFunctionAndParameters()`
passed in as `function` and `args`. -/
def Invoke (stub : ChaincodeStub) (function : String) (args : List String) :
    Option (Response × ChaincodeStub) :=
  if function = "put" then
    put stub args
  else if function = "get" then
    get stub args
  else if function = "del" then
    del stub args
  else
    let message := "unknown function name: " ++ function
      ++ ", expected one of \x7bget, put, del\x7d"
    some ({ Status := 400, Message := message, Payload := none }, stub)

/-- A store with no key, on which the host reports no error, before any call. -/
def emptyStub : ChaincodeStub :=
  { State := fun _ => none, faults := fun _ => none, calls := [], dropsEmpty := false }

/-- A store holding the value `100` under the key `alice`, on which the host
reports no error. -/
def aliceStub : ChaincodeStub :=
  { State := fun k => if k = "alice" then some (bytes "100") else none,
    faults := fun _ => none, calls := [], dropsEmpty := false }

/-- A store with no key on which the host reports the error `e` for every call. -/
def faultyStub (e : String) : ChaincodeStub :=
  { State := fun _ => none, faults := fun _ => some e, calls := [], dropsEmpty := false }

/-- A store with no key, on which the host reports no error and drops empty values. -/
def droppingStub : ChaincodeStub :=
  { State := fun _ => none, faults := fun _ => none, calls := [], dropsEmpty := true }

/-- The response of `Invoke` to a function name it does not dispatch on. -/
def unknownFunction (function : String) : Response :=
  { Status := 400,
    Message := "unknown function name: " ++ function ++ ", expected one of \x7bget, put, del\x7d",
    Payload := none }

/-! Values kept by the store -/

theorem bytes_size_ne_zero (v : String) (hv : v ≠ "") : (bytes v).size ≠ 0 := by
  unfold bytes
  rw [String.size_toUTF8]
  cases v with
  | mk data =>
    cases data with
    | nil => exact absurd rfl hv
    | cons c cs =>
      have hpos := c.utf8Size_pos
      simp only [String.utf8ByteSize, String.utf8ByteSize.go]
      omega

theorem stored_of_nonempty (stub : ChaincodeStub) (v : String) (hv : v ≠ "") :
    stub.stored (bytes v) = some (bytes v) := by
  simp [ChaincodeStub.stored, bytes_size_ne_zero v hv]

theorem stored_of_keeps (stub : ChaincodeStub) (b : ByteArray) (h : stub.dropsEmpty = false) :
    stub.stored b = some b := by
  simp [ChaincodeStub.stored, h]

theorem stored_empty_of_drops (stub : ChaincodeStub) (h : stub.dropsEmpty = true) :
    stub.stored (bytes "") = none := by
  have hsize : (bytes "").size = 0 := rfl
  simp [ChaincodeStub.stored, h, hsize]

/-! Handlers on well-formed requests -/

theorem put_wellformed (stub : ChaincodeStub) (k v : String) (hk : k ≠ "") :
    put stub [k, v] =
      match stub.PutState k (bytes v) with
      | (some err, stub') => some (shim.Error ("unable to put a key-value pair: " ++ err), stub')
      | (none, stub') => some (shim.Success none, stub') := by
  simp [put, hk]

theorem get_wellformed (stub : ChaincodeStub) (k : String) (hk : k ≠ "") :
    get stub [k] =
      match stub.GetState k with
      | ((_, some err), stub') =>
        some (shim.Error ("unable to get a value for the key " ++ k ++ ": " ++ err), stub')
      | ((none, none), stub') =>
        some ({ Status := 404, Message := "a value for the key " ++ k ++ " not found",
                Payload := none }, stub')
      | ((some valueBytes, none), stub') => some (shim.Success (some valueBytes), stub') := by
  simp [get, hk]

theorem del_wellformed (stub : ChaincodeStub) (k : String) (hk : k ≠ "") :
    del stub [k] =
      match stub.DelState k with
      | (some err, stub') =>
        some (shim.Error ("unable to delete a pair associated with the key " ++ k ++ ": " ++ err),
          stub')
      | (none, stub') => some (shim.Success none, stub') := by
  simp [del, hk]

theorem Invoke_put (stub : ChaincodeStub) (args : List String) :
    Invoke stub "put" args = put stub args := by
  simp [Invoke]

theorem Invoke_get (stub : ChaincodeStub) (args : List String) :
    Invoke stub "get" args = get stub args := by
  simp [Invoke]

theorem Invoke_del (stub : ChaincodeStub) (args : List String) :
    Invoke stub "del" args = del stub args := by
  simp [Invoke]

/-- A successful put: response `200` without payload, and the store after it. -/
theorem put_success (stub : ChaincodeStub) (k v : String) (hk : k ≠ "")
    (hput : stub.faults (StoreCall.PutState k (bytes v)) = none) :
    put stub [k, v] = some ({ Status := 200, Message := "", Payload := none },
      { stub with
        State := fun k' => if k' = k then stub.stored (bytes v) else stub.State k',
        calls := stub.calls ++ [StoreCall.PutState k (bytes v)] }) := by
  rw [put_wellformed stub k v hk]
  simp [ChaincodeStub.PutState, hput, shim.Success, shim.OK]

/-- A successful delete: response `200` without payload, and the store after it. -/
theorem del_success (stub : ChaincodeStub) (k : String) (hk : k ≠ "")
    (hdel : stub.faults (StoreCall.DelState k) = none) :
    del stub [k] = some ({ Status := 200, Message := "", Payload := none },
      { stub with
        State := fun k' => if k' = k then none else stub.State k',
        calls := stub.calls ++ [StoreCall.DelState k] }) := by
  rw [del_wellformed stub k hk]
  simp [ChaincodeStub.DelState, hdel, shim.Success, shim.OK]

/-- A get that finds a value: response `200` carrying the stored bytes. -/
theorem get_found (stub : ChaincodeStub) (k : String) (b : ByteArray) (hk : k ≠ "")
    (hget : stub.faults (StoreCall.GetState k) = none) (hval : stub.State k = some b) :
    get stub [k] = some ({ Status := 200, Message := "", Payload := some b },
      { stub with calls := stub.calls ++ [StoreCall.GetState k] }) := by
  rw [get_wellformed stub k hk]
  simp [ChaincodeStub.GetState, hget, hval, shim.Success, shim.OK]

/-- A get that finds no value: response `404` naming the key. -/
theorem get_absent (stub : ChaincodeStub) (k : String) (hk : k ≠ "")
    (hget : stub.faults (StoreCall.GetState k) = none) (hval : stub.State k = none) :
    get stub [k] =
      some ({ Status := 404, Message := "a value for the key " ++ k ++ " not found", Payload := none },
        { stub with calls := stub.calls ++ [StoreCall.GetState k] }) := by
  rw [get_wellformed stub k hk]
  simp [ChaincodeStub.GetState, hget, hval]

/-- A failed put: response `500` wrapping the error text; the mapping is unchanged. -/
theorem put_fault (stub : ChaincodeStub) (k v e : String) (hk : k ≠ "")
    (hput : stub.faults (StoreCall.PutState k (bytes v)) = some e) :
    put stub [k, v] =
      some ({ Status := 500, Message := "unable to put a key-value pair: " ++ e, Payload := none },
        { stub with calls := stub.calls ++ [StoreCall.PutState k (bytes v)] }) := by
  rw [put_wellformed stub k v hk]
  simp [ChaincodeStub.PutState, hput, shim.Error, shim.ERROR]

/-- A failed get: response `500` wrapping the error text. -/
theorem get_fault (stub : ChaincodeStub) (k e : String) (hk : k ≠ "")
    (hget : stub.faults (StoreCall.GetState k) = some e) :
    get stub [k] =
      some ({ Status := 500, Message := "unable to get a value for the key " ++ k ++ ": " ++ e,
              Payload := none },
        { stub with calls := stub.calls ++ [StoreCall.GetState k] }) := by
  rw [get_wellformed stub k hk]
  simp [ChaincodeStub.GetState, hget, shim.Error, shim.ERROR]

/-- A failed delete: response `500` wrapping the error text; the mapping is unchanged. -/
theorem del_fault (stub : ChaincodeStub) (k e : String) (hk : k ≠ "")
    (hdel : stub.faults (StoreCall.DelState k) = some e) :
    del stub [k] =
      some ({ Status := 500,
              Message := "unable to delete a pair associated with the key " ++ k ++ ": " ++ e,
              Payload := none },
        { stub with calls := stub.calls ++ [StoreCall.DelState k] }) := by
  rw [del_wellformed stub k hk]
  simp [ChaincodeStub.DelState, hdel, shim.Error, shim.ERROR]

/-! Validation failures -/

theorem toString_one : (toString 1 : String) = "1" := rfl

theorem toString_two : (toString 2 : String) = "2" := rfl

theorem expected_one (s : String) : s ++ ", expected " ++ "1" = s ++ ", expected 1" := by
  rw [String.append_assoc]; rfl

theorem expected_two (s : String) : s ++ ", expected " ++ "2" = s ++ ", expected 2" := by
  rw [String.append_assoc]; rfl

theorem put_wrong_count (stub : ChaincodeStub) (args : List String) (h : args.length ≠ 2) :
    put stub args =
      some ({ Status := 400,
              Message := "wrong number of arguments: passed " ++ toString args.length
                ++ ", expected 2",
              Payload := none }, stub) := by
  simp [put, h, toString_two, expected_two]

theorem get_wrong_count (stub : ChaincodeStub) (args : List String) (h : args.length ≠ 1) :
    get stub args =
      some ({ Status := 400,
              Message := "wrong number of arguments: passed " ++ toString args.length
                ++ ", expected 1",
              Payload := none }, stub) := by
  simp [get, h, toString_one, expected_one]

theorem del_wrong_count (stub : ChaincodeStub) (args : List String) (h : args.length ≠ 1) :
    del stub args =
      some ({ Status := 400,
              Message := "wrong number of arguments: passed " ++ toString args.length
                ++ ", expected 1",
              Payload := none }, stub) := by
  simp [del, h, toString_one, expected_one]

theorem put_empty_key (stub : ChaincodeStub) (v : String) :
    put stub ["", v] =
      some ({ Status := 400, Message := "key must be a non-empty string", Payload := none },
        stub) := by
  simp [put]

theorem get_empty_key (stub : ChaincodeStub) :
    get stub [""] =
      some ({ Status := 400, Message := "key must be a non-empty string", Payload := none },
        stub) := by
  simp [get]

theorem del_empty_key (stub : ChaincodeStub) :
    del stub [""] =
      some ({ Status := 400, Message := "key must be a non-empty string", Payload := none },
        stub) := by
  simp [del]

theorem Invoke_unknown (stub : ChaincodeStub) (function : String) (args : List String)
    (hput : function ≠ "put") (hget : function ≠ "get") (hdel : function ≠ "del") :
    Invoke stub function args = some (unknownFunction function, stub) := by
  simp [Invoke, hput, hget, hdel, unknownFunction]

/-! Messages of the handlers against the unknown-function message -/

/-- First character of a message, if any. -/
theorem head_append (a b : String) (c : Char) (h : a.data.head? = some c) :
    (a ++ b).data.head? = some c := by
  rw [String.data_append]
  cases hd : a.data with
  | nil => rw [hd] at h; simp at h
  | cons x t => rw [hd] at h; simpa using h

theorem unknownFunction_head (function : String) :
    (unknownFunction function).Message.data.head? = some 'u' := by
  unfold unknownFunction
  exact head_append _ _ _ (head_append _ _ _ rfl)

/-- A response of `put` with status `400` has a message starting with `w` or `k`. -/
theorem put_message_head (stub stub' : ChaincodeStub) (args : List String) (r : Response)
    (h : put stub args = some (r, stub')) (h400 : r.Status = 400) :
    r.Message.data.head? = some 'w' ∨ r.Message.data.head? = some 'k' := by
  by_cases hlen : args.length = 2
  · obtain ⟨k, v, rfl⟩ := List.length_eq_two.mp hlen
    by_cases hk : k = ""
    · subst hk
      rw [put_empty_key] at h
      simp only [Option.some.injEq, Prod.mk.injEq] at h
      right; rw [← h.1]; rfl
    · cases hf : stub.faults (StoreCall.PutState k (bytes v)) with
      | none =>
        rw [put_success stub k v hk hf] at h
        simp only [Option.some.injEq, Prod.mk.injEq] at h
        rw [← h.1] at h400; simp at h400
      | some e =>
        rw [put_fault stub k v e hk hf] at h
        simp only [Option.some.injEq, Prod.mk.injEq] at h
        rw [← h.1] at h400; simp at h400
  · rw [put_wrong_count stub args hlen] at h
    simp only [Option.some.injEq, Prod.mk.injEq] at h
    left; rw [← h.1]
    exact head_append _ _ _ (head_append _ _ _ rfl)

/-- A response of `get` with status `400` has a message starting with `w` or `k`. -/
theorem get_message_head (stub stub' : ChaincodeStub) (args : List String) (r : Response)
    (h : get stub args = some (r, stub')) (h400 : r.Status = 400) :
    r.Message.data.head? = some 'w' ∨ r.Message.data.head? = some 'k' := by
  by_cases hlen : args.length = 1
  · obtain ⟨k, rfl⟩ := List.length_eq_one.mp hlen
    by_cases hk : k = ""
    · subst hk
      rw [get_empty_key] at h
      simp only [Option.some.injEq, Prod.mk.injEq] at h
      right; rw [← h.1]; rfl
    · cases hf : stub.faults (StoreCall.GetState k) with
      | none =>
        cases hv : stub.State k with
        | none =>
          rw [get_absent stub k hk hf hv] at h
          simp only [Option.some.injEq, Prod.mk.injEq] at h
          rw [← h.1] at h400; simp at h400
        | some b =>
          rw [get_found stub k b hk hf hv] at h
          simp only [Option.some.injEq, Prod.mk.injEq] at h
          rw [← h.1] at h400; simp at h400
      | some e =>
        rw [get_fault stub k e hk hf] at h
        simp only [Option.some.injEq, Prod.mk.injEq] at h
        rw [← h.1] at h400; simp at h400
  · rw [get_wrong_count stub args hlen] at h
    simp only [Option.some.injEq, Prod.mk.injEq] at h
    left; rw [← h.1]
    exact head_append _ _ _ (head_append _ _ _ rfl)

/-- A response of `del` with status `400` has a message starting with `w` or `k`. -/
theorem del_message_head (stub stub' : ChaincodeStub) (args : List String) (r : Response)
    (h : del stub args = some (r, stub')) (h400 : r.Status = 400) :
    r.Message.data.head? = some 'w' ∨ r.Message.data.head? = some 'k' := by
  by_cases hlen : args.length = 1
  · obtain ⟨k, rfl⟩ := List.length_eq_one.mp hlen
    by_cases hk : k = ""
    · subst hk
      rw [del_empty_key] at h
      simp only [Option.some.injEq, Prod.mk.injEq] at h
      right; rw [← h.1]; rfl
    · cases hf : stub.faults (StoreCall.DelState k) with
      | none =>
        rw [del_success stub k hk hf] at h
        simp only [Option.some.injEq, Prod.mk.injEq] at h
        rw [← h.1] at h400; simp at h400
      | some e =>
        rw [del_fault stub k e hk hf] at h
        simp only [Option.some.injEq, Prod.mk.injEq] at h
        rw [← h.1] at h400; simp at h400
  · rw [del_wrong_count stub args hlen] at h
    simp only [Option.some.injEq, Prod.mk.injEq] at h
    left; rw [← h.1]
    exact head_append _ _ _ (head_append _ _ _ rfl)

/-- No response of a handler is the unknown-function response. -/
theorem handler_ne_unknown (stub' : ChaincodeStub) (function : String) (r : Response)
    (hhead : r.Status = 400 → r.Message.data.head? = some 'w' ∨ r.Message.data.head? = some 'k') :
    (r, stub') ≠ (unknownFunction function, stub') := by
  intro h
  have hr : r = unknownFunction function := (Prod.mk.injEq _ _ _ _ ▸ h).1
  have h400 : r.Status = 400 := by rw [hr]; rfl
  have hu := unknownFunction_head function
  rw [← hr] at hu
  rcases hhead h400 with hw | hk
  · rw [hw] at hu; simp at hu
  · rw [hk] at hu; simp at hu

/-! Every outcome of a handler -/

/-- The four outcomes of `put`: wrong count, empty key, store error, success. -/
theorem put_cases (stub : ChaincodeStub) (args : List String) :
    (args.length ≠ 2 ∧
      put stub args =
        some ({ Status := 400,
                Message := "wrong number of arguments: passed " ++ toString args.length
                  ++ ", expected 2",
                Payload := none }, stub)) ∨
    (∃ v, args = ["", v] ∧
      put stub args =
        some ({ Status := 400, Message := "key must be a non-empty string", Payload := none },
          stub)) ∨
    (∃ k v e, args = [k, v] ∧ k ≠ "" ∧
      stub.faults (StoreCall.PutState k (bytes v)) = some e ∧
      put stub args =
        some ({ Status := 500, Message := "unable to put a key-value pair: " ++ e,
                Payload := none },
          { stub with calls := stub.calls ++ [StoreCall.PutState k (bytes v)] })) ∨
    (∃ k v, args = [k, v] ∧ k ≠ "" ∧
      stub.faults (StoreCall.PutState k (bytes v)) = none ∧
      put stub args =
        some ({ Status := 200, Message := "", Payload := none },
          { stub with
            State := fun k' => if k' = k then stub.stored (bytes v) else stub.State k',
            calls := stub.calls ++ [StoreCall.PutState k (bytes v)] })) := by
  by_cases hlen : args.length = 2
  · obtain ⟨k, v, rfl⟩ := List.length_eq_two.mp hlen
    by_cases hk : k = ""
    · subst hk
      exact Or.inr (Or.inl ⟨v, rfl, put_empty_key stub v⟩)
    · cases hf : stub.faults (StoreCall.PutState k (bytes v)) with
      | none => exact Or.inr (Or.inr (Or.inr ⟨k, v, rfl, hk, hf, put_success stub k v hk hf⟩))
      | some e =>
        exact Or.inr (Or.inr (Or.inl ⟨k, v, e, rfl, hk, hf, put_fault stub k v e hk hf⟩))
  · exact Or.inl ⟨hlen, put_wrong_count stub args hlen⟩

/-- The five outcomes of `get`: wrong count, empty key, store error, absent, found. -/
theorem get_cases (stub : ChaincodeStub) (args : List String) :
    (args.length ≠ 1 ∧
      get stub args =
        some ({ Status := 400,
                Message := "wrong number of arguments: passed " ++ toString args.length
                  ++ ", expected 1",
                Payload := none }, stub)) ∨
    (args = [""] ∧
      get stub args =
        some ({ Status := 400, Message := "key must be a non-empty string", Payload := none },
          stub)) ∨
    (∃ k e, args = [k] ∧ k ≠ "" ∧ stub.faults (StoreCall.GetState k) = some e ∧
      get stub args =
        some ({ Status := 500,
                Message := "unable to get a value for the key " ++ k ++ ": " ++ e,
                Payload := none },
          { stub with calls := stub.calls ++ [StoreCall.GetState k] })) ∨
    (∃ k, args = [k] ∧ k ≠ "" ∧ stub.faults (StoreCall.GetState k) = none ∧
      stub.State k = none ∧
      get stub args =
        some ({ Status := 404, Message := "a value for the key " ++ k ++ " not found",
                Payload := none },
          { stub with calls := stub.calls ++ [StoreCall.GetState k] })) ∨
    (∃ k b, args = [k] ∧ k ≠ "" ∧ stub.faults (StoreCall.GetState k) = none ∧
      stub.State k = some b ∧
      get stub args =
        some ({ Status := 200, Message := "", Payload := some b },
          { stub with calls := stub.calls ++ [StoreCall.GetState k] })) := by
  by_cases hlen : args.length = 1
  · obtain ⟨k, rfl⟩ := List.length_eq_one.mp hlen
    by_cases hk : k = ""
    · subst hk
      exact Or.inr (Or.inl ⟨rfl, get_empty_key stub⟩)
    · cases hf : stub.faults (StoreCall.GetState k) with
      | none =>
        cases hv : stub.State k with
        | none =>
          exact Or.inr (Or.inr (Or.inr (Or.inl ⟨k, rfl, hk, hf, hv, get_absent stub k hk hf hv⟩)))
        | some b =>
          exact Or.inr (Or.inr (Or.inr (Or.inr
            ⟨k, b, rfl, hk, hf, hv, get_found stub k b hk hf hv⟩)))
      | some e => exact Or.inr (Or.inr (Or.inl ⟨k, e, rfl, hk, hf, get_fault stub k e hk hf⟩))
  · exact Or.inl ⟨hlen, get_wrong_count stub args hlen⟩

/-- The four outcomes of `del`: wrong count, empty key, store error, success. -/
theorem del_cases (stub : ChaincodeStub) (args : List String) :
    (args.length ≠ 1 ∧
      del stub args =
        some ({ Status := 400,
                Message := "wrong number of arguments: passed " ++ toString args.length
                  ++ ", expected 1",
                Payload := none }, stub)) ∨
    (args = [""] ∧
      del stub args =
        some ({ Status := 400, Message := "key must be a non-empty string", Payload := none },
          stub)) ∨
    (∃ k e, args = [k] ∧ k ≠ "" ∧ stub.faults (StoreCall.DelState k) = some e ∧
      del stub args =
        some ({ Status := 500,
                Message := "unable to delete a pair associated with the key " ++ k ++ ": " ++ e,
                Payload := none },
          { stub with calls := stub.calls ++ [StoreCall.DelState k] })) ∨
    (∃ k, args = [k] ∧ k ≠ "" ∧ stub.faults (StoreCall.DelState k) = none ∧
      del stub args =
        some ({ Status := 200, Message := "", Payload := none },
          { stub with
            State := fun k' => if k' = k then none else stub.State k',
            calls := stub.calls ++ [StoreCall.DelState k] })) := by
  by_cases hlen : args.length = 1
  · obtain ⟨k, rfl⟩ := List.length_eq_one.mp hlen
    by_cases hk : k = ""
    · subst hk
      exact Or.inr (Or.inl ⟨rfl, del_empty_key stub⟩)
    · cases hf : stub.faults (StoreCall.DelState k) with
      | none => exact Or.inr (Or.inr (Or.inr ⟨k, rfl, hk, hf, del_success stub k hk hf⟩))
      | some e => exact Or.inr (Or.inr (Or.inl ⟨k, e, rfl, hk, hf, del_fault stub k e hk hf⟩))
  · exact Or.inl ⟨hlen, del_wrong_count stub args hlen⟩

/-- The four branches of `Invoke`. -/
theorem Invoke_cases (stub : ChaincodeStub) (function : String) (args : List String) :
    (function = "put" ∧ Invoke stub function args = put stub args) ∨
    (function = "get" ∧ Invoke stub function args = get stub args) ∨
    (function = "del" ∧ Invoke stub function args = del stub args) ∨
    (function ≠ "put" ∧ function ≠ "get" ∧ function ≠ "del" ∧
      Invoke stub function args = some (unknownFunction function, stub)) := by
  by_cases hput : function = "put"
  · subst hput; exact Or.inl ⟨rfl, Invoke_put stub args⟩
  by_cases hget : function = "get"
  · subst hget; exact Or.inr (Or.inl ⟨rfl, Invoke_get stub args⟩)
  by_cases hdel : function = "del"
  · subst hdel; exact Or.inr (Or.inr (Or.inl ⟨rfl, Invoke_del stub args⟩))
  exact Or.inr (Or.inr (Or.inr ⟨hput, hget, hdel, Invoke_unknown stub function args hput hget hdel⟩))

/-! Claims -/

/-- C1, as stated, fails at the empty value: on a store that reports no error and
drops empty values, `Invoke` of `put` on `alice` with the empty value returns status
200 and the following `Invoke` of `get` on `alice` returns status 404, not 200. -/
theorem put_empty_value_get_404 :
    "alice" ≠ "" ∧
    droppingStub.faults (StoreCall.PutState "alice" "".toUTF8) = none ∧
    droppingStub.faults (StoreCall.GetState "alice") = none ∧
    ∃ stub1 stub2,
      Invoke droppingStub "put" ["alice", ""]
        = some ({ Status := 200, Message := "", Payload := none }, stub1) ∧
      Invoke stub1 "get" ["alice"]
        = some ({ Status := 404, Message := "a value for the key alice not found",
                  Payload := none }, stub2) :=
  ⟨by decide, rfl, rfl, _, _, rfl, rfl⟩

/-- C1, amended: round trip. For every store, every non-empty key `k` and every
value `v`, when the store reports no error, `Invoke` of `put` on `[k, v]` returns
status 200. If `v` is non-empty, or the store keeps an empty value as a present
value, `Invoke` of `get` on `[k]` on the resulting store returns status 200 with
the UTF-8 bytes of `v` as payload. If `v` is empty and the store drops empty values,
that `get` returns status 404. -/
theorem put_get_roundtrip (stub : ChaincodeStub) (k v : String) (hk : k ≠ "")
    (hput : stub.faults (StoreCall.PutState k v.toUTF8) = none)
    (hget : stub.faults (StoreCall.GetState k) = none) :
    ((v ≠ "" ∨ stub.dropsEmpty = false) →
      ∃ stub1 stub2,
        Invoke stub "put" [k, v]
          = some ({ Status := 200, Message := "", Payload := none }, stub1) ∧
        Invoke stub1 "get" [k]
          = some ({ Status := 200, Message := "", Payload := some v.toUTF8 }, stub2)) ∧
    (v = "" → stub.dropsEmpty = true →
      ∃ stub1 stub2,
        Invoke stub "put" [k, v]
          = some ({ Status := 200, Message := "", Payload := none }, stub1) ∧
        Invoke stub1 "get" [k]
          = some ({ Status := 404, Message := "a value for the key " ++ k ++ " not found",
                    Payload := none }, stub2)) := by
  constructor
  · intro hv
    have hst : stub.stored (bytes v) = some (bytes v) := by
      rcases hv with hv | hv
      · exact stored_of_nonempty stub v hv
      · exact stored_of_keeps stub (bytes v) hv
    refine ⟨_, _, (Invoke_put _ _).trans (put_success stub k v hk hput),
      (Invoke_get _ _).trans (get_found _ k (bytes v) hk hget ?_)⟩
    simp [hst]
  · intro hv hdrop
    subst hv
    refine ⟨_, _, (Invoke_put _ _).trans (put_success stub k "" hk hput),
      (Invoke_get _ _).trans (get_absent _ k hk hget ?_)⟩
    simp [stored_empty_of_drops stub hdrop]

/-- Witness of C1 (amended) on the store that drops empty values: the value `100`
comes back as the bytes 49, 48, 48, and the empty value is not found. -/
theorem put_get_roundtrip_witness :
    "alice" ≠ "" ∧
    droppingStub.faults (StoreCall.PutState "alice" "100".toUTF8) = none ∧
    droppingStub.faults (StoreCall.GetState "alice") = none ∧
    ("100" ≠ "" ∨ droppingStub.dropsEmpty = false) ∧
    (∃ stub1 stub2,
      Invoke droppingStub "put" ["alice", "100"]
        = some ({ Status := 200, Message := "", Payload := none }, stub1) ∧
      Invoke stub1 "get" ["alice"]
        = some ({ Status := 200, Message := "",
                  Payload := some (ByteArray.mk #[49, 48, 48]) }, stub2)) ∧
    droppingStub.dropsEmpty = true ∧
    (∃ stub1 stub2,
      Invoke droppingStub "put" ["alice", ""]
        = some ({ Status := 200, Message := "", Payload := none }, stub1) ∧
      Invoke stub1 "get" ["alice"]
        = some ({ Status := 404, Message := "a value for the key " ++ "alice" ++ " not found",
                  Payload := none }, stub2)) :=
  ⟨by decide, rfl, rfl, Or.inl (by decide),
    (put_get_roundtrip droppingStub "alice" "100" (by decide) rfl rfl).1 (Or.inl (by decide)),
    rfl,
    (put_get_roundtrip droppingStub "alice" "" (by decide) rfl rfl).2 rfl rfl⟩

/-- C2, as stated, fails: the function name `delete` is not dispatched on. On a store
holding `alice`, `Invoke` of `delete` on `[alice]` returns the unknown-function
response with status 400 and leaves `alice` in the store; and `del` on a store that
reports an error returns status 500. -/
theorem invoke_delete_not_dispatched :
    Invoke aliceStub "delete" ["alice"]
      = some ({ Status := 400,
                Message := "unknown function name: delete, expected one of \x7bget, put, del\x7d",
                Payload := none }, aliceStub) ∧
    aliceStub.State "alice" = some (bytes "100") ∧
    (Invoke (faultyStub "boom") "del" ["alice"]).map (fun r => r.1.Status) = some 500 :=
  ⟨rfl, rfl, rfl⟩

/-- C2, amended: dispatch recognises exactly the function names `put`, `get` and
`del`. For every store, `Invoke` of `put`, `get` and `del` is the handler of that
name; for every non-empty key `k`, when the store reports no error, `Invoke` of `del`
on `[k]` returns status 200 and `k` has no value in the resulting store; and the
unknown-function 400 response is returned exactly when the function is none of `put`,
`get`, `del`. -/
theorem invoke_dispatch (stub : ChaincodeStub) (function : String) (args : List String) :
    Invoke stub "put" args = put stub args ∧
    Invoke stub "get" args = get stub args ∧
    Invoke stub "del" args = del stub args ∧
    (∀ k, k ≠ "" → stub.faults (StoreCall.DelState k) = none →
      ∃ stub', Invoke stub "del" [k]
          = some ({ Status := 200, Message := "", Payload := none }, stub') ∧
        stub'.State k = none) ∧
    ((∃ stub', Invoke stub function args = some (unknownFunction function, stub')) ↔
      (function ≠ "put" ∧ function ≠ "get" ∧ function ≠ "del")) := by
  refine ⟨Invoke_put stub args, Invoke_get stub args, Invoke_del stub args, ?_, ?_, ?_⟩
  · intro k hk hdel
    refine ⟨_, (Invoke_del _ _).trans (del_success stub k hk hdel), ?_⟩
    simp
  · rintro ⟨stub', h⟩
    refine ⟨?_, ?_, ?_⟩ <;> rintro rfl
    · rw [Invoke_put] at h
      exact handler_ne_unknown stub' "put" _ (put_message_head stub stub' args _ h) rfl
    · rw [Invoke_get] at h
      exact handler_ne_unknown stub' "get" _ (get_message_head stub stub' args _ h) rfl
    · rw [Invoke_del] at h
      exact handler_ne_unknown stub' "del" _ (del_message_head stub stub' args _ h) rfl
  · rintro ⟨hput, hget, hdel'⟩
    exact ⟨stub, Invoke_unknown stub function args hput hget hdel'⟩

/-- Witness of C2 (amended): on the store holding `alice`, `del` removes `alice` and
`delete` gets the unknown-function response; on a store whose every call reports
`boom`, `del` is still the delete handler, `delete` still gets the unknown-function
response and `del` does not. -/
theorem invoke_dispatch_witness :
    "alice" ≠ "" ∧ aliceStub.faults (StoreCall.DelState "alice") = none ∧
    (∃ stub', Invoke aliceStub "del" ["alice"]
        = some ({ Status := 200, Message := "", Payload := none }, stub') ∧
      stub'.State "alice" = none) ∧
    ((∃ stub', Invoke aliceStub "delete" ["alice"]
        = some (unknownFunction "delete", stub')) ↔
      ("delete" ≠ "put" ∧ "delete" ≠ "get" ∧ "delete" ≠ "del")) ∧
    Invoke (faultyStub "boom") "del" ["alice"] = del (faultyStub "boom") ["alice"] ∧
    ((∃ stub', Invoke (faultyStub "boom") "delete" ["alice"]
        = some (unknownFunction "delete", stub')) ↔
      ("delete" ≠ "put" ∧ "delete" ≠ "get" ∧ "delete" ≠ "del")) ∧
    ((∃ stub', Invoke (faultyStub "boom") "del" ["alice"]
        = some (unknownFunction "del", stub')) ↔
      ("del" ≠ "put" ∧ "del" ≠ "get" ∧ "del" ≠ "del")) :=
  ⟨by decide, rfl,
    (invoke_dispatch aliceStub "delete" ["alice"]).2.2.2.1 "alice" (by decide) rfl,
    (invoke_dispatch aliceStub "delete" ["alice"]).2.2.2.2,
    (invoke_dispatch (faultyStub "boom") "delete" ["alice"]).2.2.1,
    (invoke_dispatch (faultyStub "boom") "delete" ["alice"]).2.2.2.2,
    (invoke_dispatch (faultyStub "boom") "del" ["alice"]).2.2.2.2⟩

/-- C3: for every function name that `Invoke` does not dispatch on, every argument
list and every store, `Invoke` returns status 400 with the message naming the
function, no payload, and leaves the stub (mapping and issued calls) unchanged. -/
theorem invoke_unknown_function (stub : ChaincodeStub) (function : String)
    (args : List String)
    (hput : function ≠ "put") (hget : function ≠ "get") (hdel : function ≠ "del") :
    Invoke stub function args
      = some ({ Status := 400,
                Message := "unknown function name: " ++ function
                  ++ ", expected one of \x7bget, put, del\x7d",
                Payload := none }, stub) :=
  Invoke_unknown stub function args hput hget hdel

/-- Witness of C3 for the function name `unknown` and the empty argument list. -/
theorem invoke_unknown_function_witness :
    "unknown" ≠ "put" ∧ "unknown" ≠ "get" ∧ "unknown" ≠ "del" ∧
    Invoke aliceStub "unknown" []
      = some ({ Status := 400,
                Message := "unknown function name: " ++ "unknown"
                  ++ ", expected one of \x7bget, put, del\x7d",
                Payload := none }, aliceStub) :=
  ⟨by decide, by decide, by decide,
    invoke_unknown_function aliceStub "unknown" [] (by decide) (by decide) (by decide)⟩

/-- C4: for every store and every non-empty key `k` without a value in the store,
when the store read reports no error, `Invoke` of `get` on `[k]` returns status 404
with the message naming `k` and no payload; the mapping is unchanged. -/
theorem get_absent_404 (stub : ChaincodeStub) (k : String) (hk : k ≠ "")
    (habsent : stub.State k = none)
    (hget : stub.faults (StoreCall.GetState k) = none) :
    ∃ stub',
      Invoke stub "get" [k]
        = some ({ Status := 404, Message := "a value for the key " ++ k ++ " not found",
                  Payload := none }, stub') ∧
      stub'.State = stub.State := by
  exact ⟨_, (Invoke_get _ _).trans (get_absent stub k hk hget habsent), rfl⟩

/-- Witness of C4 at the empty store and the key `alice`. -/
theorem get_absent_404_witness :
    "alice" ≠ "" ∧ emptyStub.State "alice" = none ∧
    emptyStub.faults (StoreCall.GetState "alice") = none ∧
    ∃ stub',
      Invoke emptyStub "get" ["alice"]
        = some ({ Status := 404, Message := "a value for the key " ++ "alice" ++ " not found",
                  Payload := none }, stub') ∧
      stub'.State = emptyStub.State :=
  ⟨by decide, rfl, rfl, get_absent_404 emptyStub "alice" (by decide) rfl rfl⟩

/-- C5: for every store, whether or not it holds a value for `k`, and every non-empty
key `k`, when the store reports no error, the delete operation on `[k]` returns and a
following `Invoke` of `get` on `[k]` on the resulting store returns status 404. -/
theorem del_then_get_404 (stub : ChaincodeStub) (k : String) (hk : k ≠ "")
    (hdel : stub.faults (StoreCall.DelState k) = none)
    (hget : stub.faults (StoreCall.GetState k) = none) :
    ∃ r1 stub1 stub2,
      Invoke stub "del" [k] = some (r1, stub1) ∧
      Invoke stub1 "get" [k]
        = some ({ Status := 404, Message := "a value for the key " ++ k ++ " not found",
                  Payload := none }, stub2) := by
  refine ⟨_, _, _, (Invoke_del _ _).trans (del_success stub k hk hdel),
    (Invoke_get _ _).trans (get_absent _ k hk hget ?_)⟩
  simp

/-- Witness of C5 on the store holding `alice`, for the key `alice`. -/
theorem del_then_get_404_witness :
    "alice" ≠ "" ∧ aliceStub.faults (StoreCall.DelState "alice") = none ∧
    aliceStub.faults (StoreCall.GetState "alice") = none ∧
    ∃ r1 stub1 stub2,
      Invoke aliceStub "del" ["alice"] = some (r1, stub1) ∧
      Invoke stub1 "get" ["alice"]
        = some ({ Status := 404, Message := "a value for the key " ++ "alice" ++ " not found",
                  Payload := none }, stub2) :=
  ⟨by decide, rfl, rfl, del_then_get_404 aliceStub "alice" (by decide) rfl rfl⟩

/-- C6, as stated, fails: on a store without a value for `alice` whose delete
reports the error `boom`, the delete operation on `[alice]` returns status 500. -/
theorem del_absent_fault_500 :
    "alice" ≠ "" ∧ (faultyStub "boom").State "alice" = none ∧
    Invoke (faultyStub "boom") "del" ["alice"]
      = some ({ Status := 500,
                Message := "unable to delete a pair associated with the key alice: boom",
                Payload := none },
              { faultyStub "boom" with calls := [StoreCall.DelState "alice"] }) :=
  ⟨by decide, rfl, rfl⟩

/-- C6, amended: for every store and every non-empty key `k`, when the store reports
no error, the delete operation on `[k]` with `k` absent returns status 200 and leaves
the mapping equal to what it was; and on any store, deleting twice returns status 200
both times and gives the same mapping as deleting once. -/
theorem del_absent_noop (stub : ChaincodeStub) (k : String) (hk : k ≠ "")
    (hdel : stub.faults (StoreCall.DelState k) = none) :
    (stub.State k = none →
      ∃ stub', Invoke stub "del" [k]
          = some ({ Status := 200, Message := "", Payload := none }, stub') ∧
        stub'.State = stub.State) ∧
    (∃ stub1 stub2,
      Invoke stub "del" [k]
        = some ({ Status := 200, Message := "", Payload := none }, stub1) ∧
      Invoke stub1 "del" [k]
        = some ({ Status := 200, Message := "", Payload := none }, stub2) ∧
      stub2.State = stub1.State) := by
  constructor
  · intro habsent
    refine ⟨_, (Invoke_del _ _).trans (del_success stub k hk hdel), ?_⟩
    funext k'
    by_cases h : k' = k
    · simp [h, habsent]
    · simp [h]
  · refine ⟨_, _, (Invoke_del _ _).trans (del_success stub k hk hdel),
      (Invoke_del _ _).trans (del_success _ k hk hdel), ?_⟩
    funext k'
    by_cases h : k' = k <;> simp [h]

/-- Witness of C6 (amended) at the empty store and the key `alice`. -/
theorem del_absent_noop_witness :
    "alice" ≠ "" ∧ emptyStub.faults (StoreCall.DelState "alice") = none ∧
    emptyStub.State "alice" = none ∧
    ∃ stub', Invoke emptyStub "del" ["alice"]
        = some ({ Status := 200, Message := "", Payload := none }, stub') ∧
      stub'.State = emptyStub.State :=
  ⟨by decide, rfl, rfl, (del_absent_noop emptyStub "alice" (by decide) rfl).1 rfl⟩

/-- C7: for every store, `put` on `["", v]`, `get` on `[""]` and `del` on `[""]`
return status 400 with the message `key must be a non-empty string` and leave the
stub as it was: the mapping is unchanged and no store call is issued. -/
theorem empty_key_rejected (stub : ChaincodeStub) (v : String) :
    Invoke stub "put" ["", v]
      = some ({ Status := 400, Message := "key must be a non-empty string", Payload := none },
          stub) ∧
    Invoke stub "get" [""]
      = some ({ Status := 400, Message := "key must be a non-empty string", Payload := none },
          stub) ∧
    Invoke stub "del" [""]
      = some ({ Status := 400, Message := "key must be a non-empty string", Payload := none },
          stub) :=
  ⟨(Invoke_put _ _).trans (put_empty_key stub v), (Invoke_get _ _).trans (get_empty_key stub),
    (Invoke_del _ _).trans (del_empty_key stub)⟩

/-- C8: for every store and every argument list, `put` with a number of arguments
other than 2, and `get` or `del` with a number of arguments other than 1, return
status 400 with the message citing the number passed (in decimal) and the number
expected, and leave the stub as it was. -/
theorem wrong_argument_count (stub : ChaincodeStub) (args : List String) :
    (args.length ≠ 2 →
      Invoke stub "put" args
        = some ({ Status := 400,
                  Message := "wrong number of arguments: passed " ++ toString args.length
                    ++ ", expected 2",
                  Payload := none }, stub)) ∧
    (args.length ≠ 1 →
      Invoke stub "get" args
        = some ({ Status := 400,
                  Message := "wrong number of arguments: passed " ++ toString args.length
                    ++ ", expected 1",
                  Payload := none }, stub) ∧
      Invoke stub "del" args
        = some ({ Status := 400,
                  Message := "wrong number of arguments: passed " ++ toString args.length
                    ++ ", expected 1",
                  Payload := none }, stub)) :=
  ⟨fun h => (Invoke_put _ _).trans (put_wrong_count stub args h),
    fun h => ⟨(Invoke_get _ _).trans (get_wrong_count stub args h),
      (Invoke_del _ _).trans (del_wrong_count stub args h)⟩⟩

/-- Witness of C8 on the store holding `alice`, for three arguments. -/
theorem wrong_argument_count_witness :
    ["a", "b", "c"].length ≠ 2 ∧ ["a", "b", "c"].length ≠ 1 ∧
    Invoke aliceStub "put" ["a", "b", "c"]
      = some ({ Status := 400, Message := "wrong number of arguments: passed 3, expected 2",
                Payload := none }, aliceStub) ∧
    Invoke aliceStub "get" ["a", "b", "c"]
      = some ({ Status := 400, Message := "wrong number of arguments: passed 3, expected 1",
                Payload := none }, aliceStub) ∧
    Invoke aliceStub "del" ["a", "b", "c"]
      = some ({ Status := 400, Message := "wrong number of arguments: passed 3, expected 1",
                Payload := none }, aliceStub) :=
  ⟨by decide, by decide,
    (wrong_argument_count aliceStub ["a", "b", "c"]).1 (by decide),
    (wrong_argument_count aliceStub ["a", "b", "c"]).2 (by decide)⟩

/-- C9: for every well-formed request (right number of arguments, non-empty key `k`),
if the store call it issues reports an error with text `e`, then `put` returns status
500 with `unable to put a key-value pair: e`, `get` returns status 500 with
`unable to get a value for the key k: e`, and `del` returns status 500 with
`unable to delete a pair associated with the key k: e`; none has a payload, and the
failed read is not reported as 404. -/
theorem store_fault_500 (stub : ChaincodeStub) (k v e : String) (hk : k ≠ "") :
    (stub.faults (StoreCall.PutState k (bytes v)) = some e →
      ∃ stub', Invoke stub "put" [k, v]
        = some ({ Status := 500, Message := "unable to put a key-value pair: " ++ e,
                  Payload := none }, stub')) ∧
    (stub.faults (StoreCall.GetState k) = some e →
      ∃ stub', Invoke stub "get" [k]
        = some ({ Status := 500,
                  Message := "unable to get a value for the key " ++ k ++ ": " ++ e,
                  Payload := none }, stub')) ∧
    (stub.faults (StoreCall.DelState k) = some e →
      ∃ stub', Invoke stub "del" [k]
        = some ({ Status := 500,
                  Message := "unable to delete a pair associated with the key " ++ k ++ ": " ++ e,
                  Payload := none }, stub')) :=
  ⟨fun h => ⟨_, (Invoke_put _ _).trans (put_fault stub k v e hk h)⟩,
    fun h => ⟨_, (Invoke_get _ _).trans (get_fault stub k e hk h)⟩,
    fun h => ⟨_, (Invoke_del _ _).trans (del_fault stub k e hk h)⟩⟩

/-- Witness of C9 on a store reporting `boom` for every call. -/
theorem store_fault_500_witness :
    "alice" ≠ "" ∧
    (faultyStub "boom").faults (StoreCall.PutState "alice" (bytes "100")) = some "boom" ∧
    (faultyStub "boom").faults (StoreCall.GetState "alice") = some "boom" ∧
    (faultyStub "boom").faults (StoreCall.DelState "alice") = some "boom" ∧
    (∃ stub', Invoke (faultyStub "boom") "put" ["alice", "100"]
        = some ({ Status := 500, Message := "unable to put a key-value pair: " ++ "boom",
                  Payload := none }, stub')) ∧
    (∃ stub', Invoke (faultyStub "boom") "get" ["alice"]
        = some ({ Status := 500,
                  Message := "unable to get a value for the key " ++ "alice" ++ ": " ++ "boom",
                  Payload := none }, stub')) ∧
    (∃ stub', Invoke (faultyStub "boom") "del" ["alice"]
        = some ({ Status := 500,
                  Message := "unable to delete a pair associated with the key " ++ "alice"
                    ++ ": " ++ "boom",
                  Payload := none }, stub')) :=
  ⟨by decide, rfl, rfl, rfl,
    (store_fault_500 (faultyStub "boom") "alice" "100" "boom" (by decide)).1 rfl,
    (store_fault_500 (faultyStub "boom") "alice" "100" "boom" (by decide)).2.1 rfl,
    (store_fault_500 (faultyStub "boom") "alice" "100" "boom" (by decide)).2.2 rfl⟩

/-- C10: put is idempotent. For every store, every non-empty key `k` and every value
`v`, when the store reports no error, `Invoke` of `put` on `[k, v]` twice returns
status 200 both times and leaves the same mapping as performing it once. -/
theorem put_idempotent (stub : ChaincodeStub) (k v : String) (hk : k ≠ "")
    (hput : stub.faults (StoreCall.PutState k (bytes v)) = none) :
    ∃ stub1 stub2,
      Invoke stub "put" [k, v]
        = some ({ Status := 200, Message := "", Payload := none }, stub1) ∧
      Invoke stub1 "put" [k, v]
        = some ({ Status := 200, Message := "", Payload := none }, stub2) ∧
      stub2.State = stub1.State := by
  refine ⟨_, _, (Invoke_put _ _).trans (put_success stub k v hk hput),
    (Invoke_put _ _).trans (put_success _ k v hk hput), ?_⟩
  funext k'
  by_cases h : k' = k <;> simp [h, ChaincodeStub.stored]

/-- Witness of C10 on the store holding `alice`, overwriting it with `7`. -/
theorem put_idempotent_witness :
    "alice" ≠ "" ∧ aliceStub.faults (StoreCall.PutState "alice" (bytes "7")) = none ∧
    ∃ stub1 stub2,
      Invoke aliceStub "put" ["alice", "7"]
        = some ({ Status := 200, Message := "", Payload := none }, stub1) ∧
      Invoke stub1 "put" ["alice", "7"]
        = some ({ Status := 200, Message := "", Payload := none }, stub2) ∧
      stub2.State = stub1.State :=
  ⟨by decide, rfl, put_idempotent aliceStub "alice" "7" (by decide) rfl⟩

/-! Totality -/

theorem put_returns (stub : ChaincodeStub) (args : List String) :
    ∃ r stub', put stub args = some (r, stub') := by
  rcases put_cases stub args with ⟨_, h⟩ | ⟨_, _, h⟩ | ⟨_, _, _, _, _, _, h⟩ | ⟨_, _, _, _, _, h⟩ <;>
    exact ⟨_, _, h⟩

theorem get_returns (stub : ChaincodeStub) (args : List String) :
    ∃ r stub', get stub args = some (r, stub') := by
  rcases get_cases stub args with
    ⟨_, h⟩ | ⟨_, h⟩ | ⟨_, _, _, _, _, h⟩ | ⟨_, _, _, _, _, h⟩ | ⟨_, _, _, _, _, _, h⟩ <;>
    exact ⟨_, _, h⟩

theorem del_returns (stub : ChaincodeStub) (args : List String) :
    ∃ r stub', del stub args = some (r, stub') := by
  rcases del_cases stub args with ⟨_, h⟩ | ⟨_, h⟩ | ⟨_, _, _, _, _, h⟩ | ⟨_, _, _, _, h⟩ <;>
    exact ⟨_, _, h⟩

theorem Invoke_returns (stub : ChaincodeStub) (function : String) (args : List String) :
    ∃ r stub', Invoke stub function args = some (r, stub') := by
  rcases Invoke_cases stub function args with ⟨_, h⟩ | ⟨_, h⟩ | ⟨_, h⟩ | ⟨_, _, _, h⟩
  · rw [h]; exact put_returns stub args
  · rw [h]; exact get_returns stub args
  · rw [h]; exact del_returns stub args
  · exact ⟨_, _, h⟩

/-- C11: the status codes form a closed taxonomy. For every function name, argument
list and stub (mapping and reported errors), `Invoke` returns a response; its status
is one of 200, 400, 404, 500; status 404 comes from `get` only; and status 500 comes
only with a store call issued by this invocation on which the store reported an
error. -/
theorem status_taxonomy (stub : ChaincodeStub) (function : String) (args : List String) :
    (∃ r stub', Invoke stub function args = some (r, stub')) ∧
    ∀ r stub', Invoke stub function args = some (r, stub') →
      (r.Status = 200 ∨ r.Status = 400 ∨ r.Status = 404 ∨ r.Status = 500) ∧
      (r.Status = 404 → function = "get") ∧
      (r.Status = 500 →
        ∃ c e, stub.faults c = some e ∧ stub'.calls = stub.calls ++ [c]) := by
  refine ⟨Invoke_returns stub function args, ?_⟩
  intro r stub' h
  rcases Invoke_cases stub function args with ⟨hf, hI⟩ | ⟨hf, hI⟩ | ⟨hf, hI⟩ | ⟨_, _, _, hI⟩
  · rw [hI] at h
    rcases put_cases stub args with
      ⟨_, hp⟩ | ⟨_, _, hp⟩ | ⟨k, v, e, _, _, hflt, hp⟩ | ⟨_, _, _, _, _, hp⟩ <;>
      rw [hp] at h <;> simp only [Option.some.injEq, Prod.mk.injEq] at h <;>
      obtain ⟨rfl, rfl⟩ := h
    · simp
    · simp
    · exact ⟨by simp, by simp, fun _ => ⟨_, e, hflt, rfl⟩⟩
    · simp
  · rw [hI] at h
    rcases get_cases stub args with
      ⟨_, hp⟩ | ⟨_, hp⟩ | ⟨k, e, _, _, hflt, hp⟩ | ⟨_, _, _, _, _, hp⟩ | ⟨_, _, _, _, _, _, hp⟩ <;>
      rw [hp] at h <;> simp only [Option.some.injEq, Prod.mk.injEq] at h <;>
      obtain ⟨rfl, rfl⟩ := h
    · simp
    · simp
    · exact ⟨by simp, by simp, fun _ => ⟨_, e, hflt, rfl⟩⟩
    · simp [hf]
    · simp
  · rw [hI] at h
    rcases del_cases stub args with
      ⟨_, hp⟩ | ⟨_, hp⟩ | ⟨k, e, _, _, hflt, hp⟩ | ⟨_, _, _, _, hp⟩ <;>
      rw [hp] at h <;> simp only [Option.some.injEq, Prod.mk.injEq] at h <;>
      obtain ⟨rfl, rfl⟩ := h
    · simp
    · simp
    · exact ⟨by simp, by simp, fun _ => ⟨_, e, hflt, rfl⟩⟩
    · simp
  · rw [hI] at h
    simp only [Option.some.injEq, Prod.mk.injEq] at h
    obtain ⟨rfl, rfl⟩ := h
    simp [unknownFunction]

/-- Witness of C11: a `get` of an absent key (status 404) and a `del` on a store
reporting `boom` (status 500). -/
theorem status_taxonomy_witness :
    Invoke emptyStub "get" ["alice"]
      = some ({ Status := 404, Message := "a value for the key alice not found",
                Payload := none },
              { emptyStub with calls := [StoreCall.GetState "alice"] }) ∧
    "get" = "get" ∧
    Invoke (faultyStub "boom") "del" ["alice"]
      = some ({ Status := 500,
                Message := "unable to delete a pair associated with the key alice: boom",
                Payload := none },
              { faultyStub "boom" with calls := [StoreCall.DelState "alice"] }) ∧
    ∃ c e, (faultyStub "boom").faults c = some e ∧
      [StoreCall.DelState "alice"] = (faultyStub "boom").calls ++ [c] :=
  ⟨rfl, ((status_taxonomy emptyStub "get" ["alice"]).2 _ _ rfl).2.1 rfl, rfl,
    ((status_taxonomy (faultyStub "boom") "del" ["alice"]).2 _ _ rfl).2.2 rfl⟩

/-- C12: a payload is present only for a successful get. For every function name,
argument list and stub, `Invoke` returns a response; if it carries a payload then the
function is `get` and the status is 200; a status 200 response of `put` or `del`
carries no payload; and every 400, 404 and 500 response carries no payload. -/
theorem payload_only_on_get_success (stub : ChaincodeStub) (function : String)
    (args : List String) :
    (∃ r stub', Invoke stub function args = some (r, stub')) ∧
    ∀ r stub', Invoke stub function args = some (r, stub') →
      (r.Payload ≠ none → function = "get" ∧ r.Status = 200) ∧
      ((function = "put" ∨ function = "del") → r.Status = 200 → r.Payload = none) ∧
      ((r.Status = 400 ∨ r.Status = 404 ∨ r.Status = 500) → r.Payload = none) := by
  refine ⟨Invoke_returns stub function args, ?_⟩
  intro r stub' h
  rcases Invoke_cases stub function args with ⟨hf, hI⟩ | ⟨hf, hI⟩ | ⟨hf, hI⟩ | ⟨_, _, _, hI⟩
  · rw [hI] at h
    rcases put_cases stub args with
      ⟨_, hp⟩ | ⟨_, _, hp⟩ | ⟨_, _, _, _, _, _, hp⟩ | ⟨_, _, _, _, _, hp⟩ <;>
      rw [hp] at h <;> simp only [Option.some.injEq, Prod.mk.injEq] at h <;>
      obtain ⟨rfl, rfl⟩ := h <;> simp
  · rw [hI] at h
    rcases get_cases stub args with
      ⟨_, hp⟩ | ⟨_, hp⟩ | ⟨_, _, _, _, _, hp⟩ | ⟨_, _, _, _, _, hp⟩ | ⟨_, _, _, _, _, _, hp⟩ <;>
      rw [hp] at h <;> simp only [Option.some.injEq, Prod.mk.injEq] at h <;>
      obtain ⟨rfl, rfl⟩ := h <;> simp [hf]
  · rw [hI] at h
    rcases del_cases stub args with
      ⟨_, hp⟩ | ⟨_, hp⟩ | ⟨_, _, _, _, _, hp⟩ | ⟨_, _, _, _, hp⟩ <;>
      rw [hp] at h <;> simp only [Option.some.injEq, Prod.mk.injEq] at h <;>
      obtain ⟨rfl, rfl⟩ := h <;> simp
  · rw [hI] at h
    simp only [Option.some.injEq, Prod.mk.injEq] at h
    obtain ⟨rfl, rfl⟩ := h
    simp [unknownFunction]

/-- Witness of C12: a `get` that finds `alice` carries a payload with status 200, a
successful `put` carries none, and a 404 carries none. -/
theorem payload_only_on_get_success_witness :
    Invoke aliceStub "get" ["alice"]
      = some ({ Status := 200, Message := "", Payload := some (bytes "100") },
              { aliceStub with calls := [StoreCall.GetState "alice"] }) ∧
    ("get" = "get" ∧ (200 : Int) = 200) ∧
    (∃ stub', Invoke emptyStub "put" ["alice", "100"]
      = some ({ Status := 200, Message := "", Payload := none }, stub')) ∧
    (none : Option ByteArray) = none ∧
    Invoke emptyStub "get" ["alice"]
      = some ({ Status := 404, Message := "a value for the key alice not found",
                Payload := none },
              { emptyStub with calls := [StoreCall.GetState "alice"] }) ∧
    (none : Option ByteArray) = none :=
  ⟨rfl,
    ((payload_only_on_get_success aliceStub "get" ["alice"]).2 _ _ rfl).1
      (by simp [shim.Success]),
    ⟨_, rfl⟩,
    ((payload_only_on_get_success emptyStub "put" ["alice", "100"]).2 _ _ rfl).2.1
      (Or.inl rfl) rfl,
    rfl,
    ((payload_only_on_get_success emptyStub "get" ["alice"]).2 _ _ rfl).2.2
      (Or.inr (Or.inl rfl))⟩

/-- C13: the example trace from the empty store on which no error is reported.
`put` of `alice`, `100` returns status 200 without payload; `get` of `alice` then
returns status 200 with payload `100`, the bytes 49, 48, 48; `del` of `alice` then
returns status 200 without payload; `get` of `alice` then returns status 404 with
the message `a value for the key alice not found`. -/
theorem example_trace :
    ∃ stub1 stub2 stub3 stub4,
      Invoke emptyStub "put" ["alice", "100"]
        = some ({ Status := 200, Message := "", Payload := none }, stub1) ∧
      Invoke stub1 "get" ["alice"]
        = some ({ Status := 200, Message := "", Payload := some (ByteArray.mk #[49, 48, 48]) },
            stub2) ∧
      Invoke stub2 "del" ["alice"]
        = some ({ Status := 200, Message := "", Payload := none }, stub3) ∧
      Invoke stub3 "get" ["alice"]
        = some ({ Status := 404, Message := "a value for the key alice not found",
                  Payload := none }, stub4) :=
  ⟨_, _, _, _, rfl, rfl, rfl, rfl⟩

/-- C14: get has no side effects. For every stub and argument list, `Invoke` of
`get` returns and leaves the mapping equal to what it was, whatever the status; and
on a store that reports no error, the same `get` repeated on the resulting stub
returns the same response. -/
theorem get_no_side_effect (stub : ChaincodeStub) (args : List String) :
    (∃ r stub', Invoke stub "get" args = some (r, stub') ∧ stub'.State = stub.State) ∧
    ((∀ c, stub.faults c = none) →
      ∃ r stub1 stub2,
        Invoke stub "get" args = some (r, stub1) ∧
        Invoke stub1 "get" args = some (r, stub2) ∧
        stub2.State = stub.State) := by
  rw [Invoke_get]
  rcases get_cases stub args with
    ⟨hl, hp⟩ | ⟨ha, hp⟩ | ⟨k, e, ha, hk, hflt, hp⟩ | ⟨k, ha, hk, hflt, hv, hp⟩ |
      ⟨k, b, ha, hk, hflt, hv, hp⟩
  · refine ⟨⟨_, _, hp, rfl⟩, fun _ => ⟨_, _, _, hp, ?_, rfl⟩⟩
    rw [Invoke_get]; exact hp
  · refine ⟨⟨_, _, hp, rfl⟩, fun _ => ⟨_, _, _, hp, ?_, rfl⟩⟩
    rw [Invoke_get]; exact hp
  · refine ⟨⟨_, _, hp, rfl⟩, fun hfree => ?_⟩
    rw [hfree] at hflt; simp at hflt
  · subst ha
    exact ⟨⟨_, _, hp, rfl⟩, fun _ => ⟨_, _, _, hp,
      (Invoke_get _ _).trans (get_absent _ k hk hflt hv), rfl⟩⟩
  · subst ha
    exact ⟨⟨_, _, hp, rfl⟩, fun _ => ⟨_, _, _, hp,
      (Invoke_get _ _).trans (get_found _ k b hk hflt hv), rfl⟩⟩

/-- Witness of C14 on the store holding `alice`, which reports no error. -/
theorem get_no_side_effect_witness :
    (∀ c, aliceStub.faults c = none) ∧
    ∃ r stub1 stub2,
      Invoke aliceStub "get" ["alice"] = some (r, stub1) ∧
      Invoke stub1 "get" ["alice"] = some (r, stub2) ∧
      stub2.State = aliceStub.State :=
  ⟨fun _ => rfl, (get_no_side_effect aliceStub ["alice"]).2 (fun _ => rfl)⟩

/-- C15: `Init` returns success unconditionally. For every stub, `Init` returns
status 200 with an empty message and no payload, and leaves the stub as it was: the
mapping is unchanged and no store call is issued. -/
theorem init_success (stub : ChaincodeStub) :
    Init stub = some ({ Status := 200, Message := "", Payload := none }, stub) :=
  rfl

/-! Order of the checks -/

/-- A message whose first character is not `k` is not the empty-key message. -/
theorem message_ne_key (m : String) (c : Char) (hc : m.data.head? = some c) (hne : c ≠ 'k') :
    m ≠ "key must be a non-empty string" := by
  intro h
  rw [h] at hc
  have hk : "key must be a non-empty string".data.head? = some 'k' := rfl
  rw [hk] at hc
  exact hne (Option.some.inj hc).symm

/-- C16: each handler checks the argument count before the key. With the empty
string as first argument, `put` with a number of arguments other than 2, and `get`
and `del` with a number other than 1, return the wrong-number-of-arguments response;
and a response with the message `key must be a non-empty string` comes only from
`put` with 2 arguments or from `get` or `del` with 1 argument. -/
theorem count_checked_before_key (stub : ChaincodeStub) (function : String)
    (args rest : List String) :
    (("" :: rest).length ≠ 2 →
      Invoke stub "put" ("" :: rest)
        = some ({ Status := 400,
                  Message := "wrong number of arguments: passed "
                    ++ toString ("" :: rest).length ++ ", expected 2",
                  Payload := none }, stub)) ∧
    (("" :: rest).length ≠ 1 →
      Invoke stub "get" ("" :: rest)
        = some ({ Status := 400,
                  Message := "wrong number of arguments: passed "
                    ++ toString ("" :: rest).length ++ ", expected 1",
                  Payload := none }, stub) ∧
      Invoke stub "del" ("" :: rest)
        = some ({ Status := 400,
                  Message := "wrong number of arguments: passed "
                    ++ toString ("" :: rest).length ++ ", expected 1",
                  Payload := none }, stub)) ∧
    (∀ r stub', Invoke stub function args = some (r, stub') →
      r.Message = "key must be a non-empty string" →
      (function = "put" ∧ args.length = 2) ∨
        ((function = "get" ∨ function = "del") ∧ args.length = 1)) := by
  refine ⟨fun h => (Invoke_put _ _).trans (put_wrong_count stub _ h),
    fun h => ⟨(Invoke_get _ _).trans (get_wrong_count stub _ h),
      (Invoke_del _ _).trans (del_wrong_count stub _ h)⟩, ?_⟩
  intro r stub' h hm
  rcases Invoke_cases stub function args with ⟨hf, hI⟩ | ⟨hf, hI⟩ | ⟨hf, hI⟩ | ⟨_, _, _, hI⟩
  · rw [hI] at h
    rcases put_cases stub args with
      ⟨_, hp⟩ | ⟨v, ha, hp⟩ | ⟨k, v, e, ha, _, _, hp⟩ | ⟨k, v, ha, _, _, hp⟩ <;>
      rw [hp] at h <;> simp only [Option.some.injEq, Prod.mk.injEq] at h <;>
      obtain ⟨rfl, rfl⟩ := h
    · exact absurd hm (message_ne_key _ 'w' (head_append _ _ _ (head_append _ _ _ rfl))
        (by decide))
    · exact Or.inl ⟨hf, by rw [ha]; rfl⟩
    · exact Or.inl ⟨hf, by rw [ha]; rfl⟩
    · exact Or.inl ⟨hf, by rw [ha]; rfl⟩
  · rw [hI] at h
    rcases get_cases stub args with
      ⟨_, hp⟩ | ⟨ha, hp⟩ | ⟨k, e, ha, _, _, hp⟩ | ⟨k, ha, _, _, _, hp⟩ |
        ⟨k, b, ha, _, _, _, hp⟩ <;>
      rw [hp] at h <;> simp only [Option.some.injEq, Prod.mk.injEq] at h <;>
      obtain ⟨rfl, rfl⟩ := h
    · exact absurd hm (message_ne_key _ 'w' (head_append _ _ _ (head_append _ _ _ rfl))
        (by decide))
    · exact Or.inr ⟨Or.inl hf, by rw [ha]; rfl⟩
    · exact Or.inr ⟨Or.inl hf, by rw [ha]; rfl⟩
    · exact Or.inr ⟨Or.inl hf, by rw [ha]; rfl⟩
    · exact Or.inr ⟨Or.inl hf, by rw [ha]; rfl⟩
  · rw [hI] at h
    rcases del_cases stub args with
      ⟨_, hp⟩ | ⟨ha, hp⟩ | ⟨k, e, ha, _, _, hp⟩ | ⟨k, ha, _, _, hp⟩ <;>
      rw [hp] at h <;> simp only [Option.some.injEq, Prod.mk.injEq] at h <;>
      obtain ⟨rfl, rfl⟩ := h
    · exact absurd hm (message_ne_key _ 'w' (head_append _ _ _ (head_append _ _ _ rfl))
        (by decide))
    · exact Or.inr ⟨Or.inr hf, by rw [ha]; rfl⟩
    · exact Or.inr ⟨Or.inr hf, by rw [ha]; rfl⟩
    · exact Or.inr ⟨Or.inr hf, by rw [ha]; rfl⟩
  · rw [hI] at h
    simp only [Option.some.injEq, Prod.mk.injEq] at h
    obtain ⟨rfl, rfl⟩ := h
    exact absurd hm (message_ne_key _ 'u' (unknownFunction_head function) (by decide))

/-- Witness of C16: `put` on one empty argument and `get` and `del` on an empty
argument followed by `x` answer with the count, and `get` on one empty argument
answers with the empty-key message. -/
theorem count_checked_before_key_witness :
    [""].length ≠ 2 ∧ ["", "x"].length ≠ 1 ∧
    Invoke aliceStub "put" [""]
      = some ({ Status := 400, Message := "wrong number of arguments: passed 1, expected 2",
                Payload := none }, aliceStub) ∧
    (Invoke aliceStub "get" ["", "x"]
      = some ({ Status := 400, Message := "wrong number of arguments: passed 2, expected 1",
                Payload := none }, aliceStub) ∧
    Invoke aliceStub "del" ["", "x"]
      = some ({ Status := 400, Message := "wrong number of arguments: passed 2, expected 1",
                Payload := none }, aliceStub)) ∧
    Invoke aliceStub "get" [""]
      = some ({ Status := 400, Message := "key must be a non-empty string", Payload := none },
          aliceStub) ∧
    (("get" = "put" ∧ [""].length = 2) ∨ (("get" = "get" ∨ "get" = "del") ∧ [""].length = 1)) :=
  ⟨by decide, by decide,
    (count_checked_before_key aliceStub "get" [""] []).1 (by decide),
    (count_checked_before_key aliceStub "get" [""] ["x"]).2.1 (by decide),
    rfl,
    (count_checked_before_key aliceStub "get" [""] []).2.2 _ _ rfl rfl⟩

/-! Exactly one response, at most one store call -/

/-- A result that is returned is the only one. -/
theorem existsUnique_of_returns (x : Option (Response × ChaincodeStub))
    (h : ∃ r stub', x = some (r, stub')) : ∃! p, x = some p := by
  obtain ⟨r, stub', h⟩ := h
  refine ⟨(r, stub'), h, ?_⟩
  intro q hq
  rw [h] at hq
  exact (Option.some.inj hq).symm

/-- C17: every invocation is total. For every stub, function name and argument list
(the empty list included), `Invoke`, and each of `put`, `get` and `del`, returns
exactly one response and never the out-of-range failure of the indexing; and the
arguments read after a passed length check are in range: `args[0]` and `args[1]`
when the length is 2, `args[0]` when the length is 1. -/
theorem invoke_total (stub : ChaincodeStub) (function : String) (args : List String) :
    (∃! p, Invoke stub function args = some p) ∧
    (∃! p, put stub args = some p) ∧
    (∃! p, get stub args = some p) ∧
    (∃! p, del stub args = some p) ∧
    (args.length = 2 → ∃ key value, args[0]? = some key ∧ args[1]? = some value) ∧
    (args.length = 1 → ∃ key, args[0]? = some key) := by
  refine ⟨existsUnique_of_returns _ (Invoke_returns stub function args),
    existsUnique_of_returns _ (put_returns stub args),
    existsUnique_of_returns _ (get_returns stub args),
    existsUnique_of_returns _ (del_returns stub args), ?_, ?_⟩
  · intro h
    obtain ⟨k, v, rfl⟩ := List.length_eq_two.mp h
    exact ⟨k, v, rfl, rfl⟩
  · intro h
    obtain ⟨k, rfl⟩ := List.length_eq_one.mp h
    exact ⟨k, rfl⟩

/-- Witness of C17: the empty argument list is answered by every handler, and the
arguments of a list of length 2 and of length 1 are in range. -/
theorem invoke_total_witness :
    (∃! p, Invoke emptyStub "put" [] = some p) ∧
    (∃! p, Invoke emptyStub "get" [] = some p) ∧
    (∃! p, Invoke emptyStub "del" [] = some p) ∧
    (∃! p, Invoke emptyStub "" [] = some p) ∧
    ["alice", "100"].length = 2 ∧
    (∃ key value, ["alice", "100"][0]? = some key ∧ ["alice", "100"][1]? = some value) ∧
    ["alice"].length = 1 ∧
    (∃ key, ["alice"][0]? = some key) :=
  ⟨(invoke_total emptyStub "put" []).1, (invoke_total emptyStub "get" []).1,
    (invoke_total emptyStub "del" []).1, (invoke_total emptyStub "" []).1,
    rfl, (invoke_total emptyStub "put" ["alice", "100"]).2.2.2.2.1 rfl,
    rfl, (invoke_total emptyStub "get" ["alice"]).2.2.2.2.2 rfl⟩

/-- C18: at most one store call per invocation. For every stub, function name and
argument list, `Invoke` returns, and the store calls it issued (those added to the
calls of the stub) are at most one; there is none exactly when the status is 400;
otherwise there is the single call of the handler on the key of the request:
`PutState` for `put`, `GetState` for `get`, `DelState` for `del`. -/
theorem at_most_one_store_call (stub : ChaincodeStub) (function : String)
    (args : List String) :
    ∃ r stub' issued,
      Invoke stub function args = some (r, stub') ∧
      stub'.calls = stub.calls ++ issued ∧
      issued.length ≤ 1 ∧
      (issued = [] ↔ r.Status = 400) ∧
      (issued = [] ∨
        (function = "put" ∧ ∃ k v, args = [k, v] ∧ issued = [StoreCall.PutState k (bytes v)]) ∨
        (function = "get" ∧ ∃ k, args = [k] ∧ issued = [StoreCall.GetState k]) ∨
        (function = "del" ∧ ∃ k, args = [k] ∧ issued = [StoreCall.DelState k])) := by
  rcases Invoke_cases stub function args with ⟨hf, hI⟩ | ⟨hf, hI⟩ | ⟨hf, hI⟩ | ⟨_, _, _, hI⟩
  · rcases put_cases stub args with
      ⟨_, hp⟩ | ⟨v, ha, hp⟩ | ⟨k, v, e, ha, _, _, hp⟩ | ⟨k, v, ha, _, _, hp⟩
    · exact ⟨_, _, [], hI.trans hp, by simp, by simp, by simp, Or.inl rfl⟩
    · exact ⟨_, _, [], hI.trans hp, by simp, by simp, by simp, Or.inl rfl⟩
    · exact ⟨_, _, [StoreCall.PutState k (bytes v)], hI.trans hp, rfl, by simp, by simp,
        Or.inr (Or.inl ⟨hf, k, v, ha, rfl⟩)⟩
    · exact ⟨_, _, [StoreCall.PutState k (bytes v)], hI.trans hp, rfl, by simp, by simp,
        Or.inr (Or.inl ⟨hf, k, v, ha, rfl⟩)⟩
  · rcases get_cases stub args with
      ⟨_, hp⟩ | ⟨ha, hp⟩ | ⟨k, e, ha, _, _, hp⟩ | ⟨k, ha, _, _, _, hp⟩ |
        ⟨k, b, ha, _, _, _, hp⟩
    · exact ⟨_, _, [], hI.trans hp, by simp, by simp, by simp, Or.inl rfl⟩
    · exact ⟨_, _, [], hI.trans hp, by simp, by simp, by simp, Or.inl rfl⟩
    · exact ⟨_, _, [StoreCall.GetState k], hI.trans hp, rfl, by simp, by simp,
        Or.inr (Or.inr (Or.inl ⟨hf, k, ha, rfl⟩))⟩
    · exact ⟨_, _, [StoreCall.GetState k], hI.trans hp, rfl, by simp, by simp,
        Or.inr (Or.inr (Or.inl ⟨hf, k, ha, rfl⟩))⟩
    · exact ⟨_, _, [StoreCall.GetState k], hI.trans hp, rfl, by simp, by simp,
        Or.inr (Or.inr (Or.inl ⟨hf, k, ha, rfl⟩))⟩
  · rcases del_cases stub args with
      ⟨_, hp⟩ | ⟨ha, hp⟩ | ⟨k, e, ha, _, _, hp⟩ | ⟨k, ha, _, _, hp⟩
    · exact ⟨_, _, [], hI.trans hp, by simp, by simp, by simp, Or.inl rfl⟩
    · exact ⟨_, _, [], hI.trans hp, by simp, by simp, by simp, Or.inl rfl⟩
    · exact ⟨_, _, [StoreCall.DelState k], hI.trans hp, rfl, by simp, by simp,
        Or.inr (Or.inr (Or.inr ⟨hf, k, ha, rfl⟩))⟩
    · exact ⟨_, _, [StoreCall.DelState k], hI.trans hp, rfl, by simp, by simp,
        Or.inr (Or.inr (Or.inr ⟨hf, k, ha, rfl⟩))⟩
  · exact ⟨_, _, [], hI, by simp, by simp, by simp [unknownFunction], Or.inl rfl⟩

/-! Other keys -/

/-- The response of `get` on `[k]` depends on the stub only through the value of `k`
and the reported errors. -/
theorem get_response_congr (stub stub1 : ChaincodeStub) (k : String)
    (hS : stub1.State k = stub.State k) (hF : stub1.faults = stub.faults) :
    ∃ r sa sb, get stub [k] = some (r, sa) ∧ get stub1 [k] = some (r, sb) := by
  by_cases hk : k = ""
  · subst hk
    exact ⟨_, _, _, get_empty_key stub, get_empty_key stub1⟩
  · cases hf : stub.faults (StoreCall.GetState k) with
    | some e =>
      exact ⟨_, _, _, get_fault stub k e hk hf, get_fault stub1 k e hk (by rw [hF]; exact hf)⟩
    | none =>
      cases hv : stub.State k with
      | none =>
        exact ⟨_, _, _, get_absent stub k hk hf hv,
          get_absent stub1 k hk (by rw [hF]; exact hf) (hS.trans hv)⟩
      | some b =>
        exact ⟨_, _, _, get_found stub k b hk hf hv,
          get_found stub1 k b hk (by rw [hF]; exact hf) (hS.trans hv)⟩

/-- C19: put and delete touch only the key of the request. For every stub, every
non-empty key `k`, every value `v` and every key `k'` other than `k`: after a `put`
on `[k, v]` that returns status 200, and after a `del` on `[k]` that returns status
200, the value or absence of `k'` is what it was, and `get` on `[k']` returns the
same response on the stub before and on the stub after. -/
theorem other_keys_untouched (stub : ChaincodeStub) (k v k' : String) (hk : k ≠ "")
    (hne : k' ≠ k) :
    (∀ r stub1, Invoke stub "put" [k, v] = some (r, stub1) → r.Status = 200 →
      stub1.State k' = stub.State k' ∧
      ∃ rg sa sb, Invoke stub "get" [k'] = some (rg, sa) ∧
        Invoke stub1 "get" [k'] = some (rg, sb)) ∧
    (∀ r stub1, Invoke stub "del" [k] = some (r, stub1) → r.Status = 200 →
      stub1.State k' = stub.State k' ∧
      ∃ rg sa sb, Invoke stub "get" [k'] = some (rg, sa) ∧
        Invoke stub1 "get" [k'] = some (rg, sb)) := by
  constructor
  · intro r stub1 h h200
    rw [Invoke_put] at h
    cases hf : stub.faults (StoreCall.PutState k (bytes v)) with
    | some e =>
      rw [put_fault stub k v e hk hf] at h
      simp only [Option.some.injEq, Prod.mk.injEq] at h
      obtain ⟨rfl, rfl⟩ := h
      simp at h200
    | none =>
      rw [put_success stub k v hk hf] at h
      simp only [Option.some.injEq, Prod.mk.injEq] at h
      obtain ⟨rfl, rfl⟩ := h
      have hS : (if k' = k then stub.stored (bytes v) else stub.State k') = stub.State k' := by
        simp [hne]
      refine ⟨hS, ?_⟩
      simp only [Invoke_get]
      exact get_response_congr stub _ k' hS rfl
  · intro r stub1 h h200
    rw [Invoke_del] at h
    cases hf : stub.faults (StoreCall.DelState k) with
    | some e =>
      rw [del_fault stub k e hk hf] at h
      simp only [Option.some.injEq, Prod.mk.injEq] at h
      obtain ⟨rfl, rfl⟩ := h
      simp at h200
    | none =>
      rw [del_success stub k hk hf] at h
      simp only [Option.some.injEq, Prod.mk.injEq] at h
      obtain ⟨rfl, rfl⟩ := h
      have hS : (if k' = k then none else stub.State k') = stub.State k' := by
        simp [hne]
      refine ⟨hS, ?_⟩
      simp only [Invoke_get]
      exact get_response_congr stub _ k' hS rfl

/-- Witness of C19 on the store holding `alice`: a `put` of `bob` and a `del` of `bob`
leave `alice` as it was. -/
theorem other_keys_untouched_witness :
    "bob" ≠ "" ∧ "alice" ≠ "bob" ∧
    (∃ stub1,
      Invoke aliceStub "put" ["bob", "1"]
        = some ({ Status := 200, Message := "", Payload := none }, stub1) ∧
      stub1.State "alice" = aliceStub.State "alice" ∧
      ∃ rg sa sb, Invoke aliceStub "get" ["alice"] = some (rg, sa) ∧
        Invoke stub1 "get" ["alice"] = some (rg, sb)) ∧
    (∃ stub1,
      Invoke aliceStub "del" ["bob"]
        = some ({ Status := 200, Message := "", Payload := none }, stub1) ∧
      stub1.State "alice" = aliceStub.State "alice" ∧
      ∃ rg sa sb, Invoke aliceStub "get" ["alice"] = some (rg, sa) ∧
        Invoke stub1 "get" ["alice"] = some (rg, sb)) :=
  ⟨by decide, by decide,
    ⟨_, rfl,
      (other_keys_untouched aliceStub "bob" "1" "alice" (by decide) (by decide)).1 _ _ rfl rfl⟩,
    ⟨_, rfl,
      (other_keys_untouched aliceStub "bob" "1" "alice" (by decide) (by decide)).2 _ _ rfl rfl⟩⟩

end SimpleChaincode
